import Mathlib

/-!
Shallow embedding of the lifecycle-orchestration core of the testplan
repository (testplan/common/entity/base.py): the generic status state
machine, resources, environments (ordered resource collections with
sequenced start/stop), runnables (FIFO step pipelines) and the abort
cascade.  Python `None` status is the `Tag.NONE` constructor; raised
Python exceptions are `Option PyErr` / `Except`-style return components;
`OrderedDict` result mappings are association lists with in-place update.
-/

/-- Status tags used across all entity status enumerations in the source
(`EntityStatus`, `RunnableStatus`, `ResourceStatus`).  `NONE` models the
Python `None` initial tag. -/
inductive Tag
  | NONE
  | PAUSING
  | PAUSED
  | RESUMING
  | STARTING
  | STARTED
  | STOPPING
  | STOPPED
  | EXECUTING
  | RUNNING
  | FINISHED
deriving DecidableEq, Repr, Fintype

/-- Python exceptions that the embedded code can raise. -/
inductive PyErr
  | statusTransition (cur new : Tag)
  | runtimeError (msg : String)
  | indexError
  | userError (msg : String)
deriving DecidableEq, Repr

/-- Which concrete status class a machine belongs to.  `RunnableManager`
does not override `STATUS`, so it shares the base `entity` table. -/
inductive StatusKind
  | entity
  | runnable
  | resource
deriving DecidableEq, Repr, Fintype

/-- `EntityStatus.transitions`: base table shared by all kinds.  A key
absent from the Python dict is `none` here (lookup raises `KeyError`). -/
def entityTransitions : Tag → Option (List Tag)
  | .PAUSING => some [.PAUSED]
  | .PAUSED => some [.RESUMING]
  | _ => none

/-- `RunnableStatus.transitions`: the base table updated with the
runnable-specific edges. -/
def runnableTransitions : Tag → Option (List Tag)
  | .NONE => some [.RUNNING]
  | .RUNNING => some [.FINISHED, .EXECUTING, .PAUSING]
  | .EXECUTING => some [.RUNNING]
  | .PAUSING => some [.PAUSED]
  | .PAUSED => some [.RESUMING]
  | .RESUMING => some [.RUNNING]
  | .FINISHED => some [.RUNNING]
  | _ => none

/-- `ResourceStatus.transitions`: the base table updated with the
resource-specific edges. -/
def resourceTransitions : Tag → Option (List Tag)
  | .NONE => some [.STARTING]
  | .STARTING => some [.STARTED, .STOPPING]
  | .STARTED => some [.PAUSING, .STOPPING]
  | .PAUSING => some [.PAUSED]
  | .PAUSED => some [.RESUMING, .STOPPING]
  | .RESUMING => some [.STARTED]
  | .STOPPING => some [.STOPPED]
  | .STOPPED => some [.STARTING]
  | _ => none

/-- Transition table of a given status kind. -/
def transitionsOf : StatusKind → Tag → Option (List Tag)
  | .entity => entityTransitions
  | .runnable => runnableTransitions
  | .resource => resourceTransitions

/-- Legal-successor set of a tag (empty when the tag is not a key of the
table, in which case the Python lookup raises `KeyError`). -/
def legalSucc (k : StatusKind) (t : Tag) : List Tag :=
  (transitionsOf k t).getD []

/-- `EntityStatus.change`: first component is the `_current` tag after the
call (unchanged when the call raises), second is the raised exception if
any.  Mirrors the short-circuit `current == new or new in
self._transitions[current]` with the `KeyError` branch also producing a
`StatusTransitionException`. -/
def changeResult (k : StatusKind) (cur new : Tag) : Tag × Option PyErr :=
  if cur = new then (new, none)
  else
    match transitionsOf k cur with
    | some succs =>
        if new ∈ succs then (new, none)
        else (cur, some (PyErr.statusTransition cur new))
    | none => (cur, some (PyErr.statusTransition cur new))

/-- C2: for every status machine (every status kind used in the source)
and every pair of tags A (the current tag) and B, `change(B)` succeeds iff
A = B or B is in the legal-successor set of A in that kind's transition
table; and the tag after the call is B on success, A (unchanged) on
failure. -/
theorem change_legal_iff :
    ∀ (k : StatusKind) (a b : Tag),
      ((changeResult k a b).2 = none ↔ (a = b ∨ b ∈ legalSucc k a)) ∧
      (changeResult k a b).1 = (if a = b ∨ b ∈ legalSucc k a then b else a) := by
  decide

/-- Python values that appear as step results or context entries. -/
inductive PyVal
  | none
  | bool (b : Bool)
  | int (n : Int)
  | str (s : String)
  | exc (e : PyErr)
deriving DecidableEq, Repr

/-- A concrete `Resource` instance: its status tag, `async_start`
configuration, abort flags, context back-reference (the id of the owning
`Environment`), and the behaviour of its `starting()` / `stopping()`
hooks.  A hook either raises, or returns after optionally driving the
status to the terminal tag itself (`startSets` / `stopSets` false models
the fire-and-forget hooks reconciled later by the forced wait handlers). -/
structure ResourceModel where
  uid : String
  async_start : Bool
  startRaises : Bool
  startSets : Bool
  stopRaises : Bool
  stopSets : Bool
  tag : Tag
  context : Option Nat
  shouldAbort : Bool
  abortedFlag : Bool
deriving DecidableEq, Repr

/-- A fresh resource with default flags, as produced by `Resource.__init__`
with the given configuration. -/
def mkResource (uid : String) (async startRaises : Bool) : ResourceModel :=
  { uid := uid, async_start := async, startRaises := startRaises,
    startSets := false, stopRaises := false, stopSets := false,
    tag := Tag.NONE, context := none,
    shouldAbort := false, abortedFlag := false }

/-- `Entity.active`: not abort-requested and not aborted. -/
def ResourceModel.active (r : ResourceModel) : Bool :=
  !r.shouldAbort && !r.abortedFlag

/-- `Resource.start`: `status.change(STARTING)` then the `starting()` hook.
Second component is the raised exception, if any; on a raise the partial
status mutation persists. -/
def resourceStart (r : ResourceModel) : ResourceModel × Option PyErr :=
  let c1 := changeResult StatusKind.resource r.tag Tag.STARTING
  let r1 := {r with tag := c1.1}
  match c1.2 with
  | some e => (r1, some e)
  | none =>
      if r1.startRaises then (r1, some (PyErr.userError "starting"))
      else if r1.startSets then
        let c2 := changeResult StatusKind.resource r1.tag Tag.STARTED
        ({r1 with tag := c2.1}, c2.2)
      else (r1, none)

/-- `Resource.stop`: `status.change(STOPPING)`, then the `stopping()` hook
if the resource is still active. -/
def resourceStop (r : ResourceModel) : ResourceModel × Option PyErr :=
  let c1 := changeResult StatusKind.resource r.tag Tag.STOPPING
  let r1 := {r with tag := c1.1}
  match c1.2 with
  | some e => (r1, some e)
  | none =>
      if r1.active then
        if r1.stopRaises then (r1, some (PyErr.userError "stopping"))
        else if r1.stopSets then
          let c2 := changeResult StatusKind.resource r1.tag Tag.STOPPED
          ({r1 with tag := c2.1}, c2.2)
        else (r1, none)
      else (r1, none)

/-- `Resource._wait_started`, the wait handler registered for `STARTED`:
it forces `status.change(STARTED)` (which may raise). -/
def resourceWaitStarted (r : ResourceModel) : ResourceModel × Option PyErr :=
  let c := changeResult StatusKind.resource r.tag Tag.STARTED
  ({r with tag := c.1}, c.2)

/-- `Resource._wait_stopped`, the wait handler registered for `STOPPED`. -/
def resourceWaitStopped (r : ResourceModel) : ResourceModel × Option PyErr :=
  let c := changeResult StatusKind.resource r.tag Tag.STOPPED
  ({r with tag := c.1}, c.2)

/-- First loop of `Environment.start`: start each resource in insertion
order, waiting inline for `STARTED` on synchronous ones; any exception is
caught, the failing resource is recorded in `start_exceptions` and the
loop breaks, leaving later resources untouched.  Returns the updated
resource list and the uids recorded in `start_exceptions`. -/
def envStartPass1 : List ResourceModel → List ResourceModel × List String
  | [] => ([], [])
  | r :: rest =>
      let s := resourceStart r
      match s.2 with
      | some _ => (s.1 :: rest, [s.1.uid])
      | none =>
          if s.1.async_start then
            let t := envStartPass1 rest
            (s.1 :: t.1, t.2)
          else
            let w := resourceWaitStarted s.1
            match w.2 with
            | some _ => (w.1 :: rest, [w.1.uid])
            | none =>
                let t := envStartPass1 rest
                (w.1 :: t.1, t.2)

/-- Second loop of `Environment.start`: for each resource in insertion
order, `continue` on synchronous ones, `break` on a resource recorded in
`start_exceptions`, otherwise `wait(STARTED)` (the forced handler, whose
exception is NOT caught here and propagates).  Returns the updated list,
the uids the pass attempted to wait on, and a propagated exception. -/
def envStartPass2 (failed : List String) :
    List ResourceModel → List ResourceModel × List String × Option PyErr
  | [] => ([], [], none)
  | r :: rest =>
      if r.async_start = false then
        let t := envStartPass2 failed rest
        (r :: t.1, t.2.1, t.2.2)
      else if r.uid ∈ failed then (r :: rest, [], none)
      else
        let w := resourceWaitStarted r
        match w.2 with
        | some e => (w.1 :: rest, [r.uid], some e)
        | none =>
            let t := envStartPass2 failed rest
            (w.1 :: t.1, r.uid :: t.2.1, t.2.2)

/-- `Environment.start`: the two passes in sequence.  Components: updated
resources (insertion order), `start_exceptions` uids, uids waited on by
the second pass, exception propagated out of the second pass. -/
def envStart (rs : List ResourceModel) :
    List ResourceModel × List String × List String × Option PyErr :=
  let p1 := envStartPass1 rs
  let p2 := envStartPass2 p1.2 p1.1
  (p2.1, p1.2, p2.2.1, p2.2.2)

/-- First loop of `Environment.stop`: over the (possibly reversed) list,
skip resources whose tag is still `NONE`, otherwise call `stop()`,
catching any exception into `stop_exceptions` without halting.  Returns
the updated list (iteration order), the `stop_exceptions` uids and the
trace of uids on which `stop()` was invoked, both in iteration order. -/
def envStopPass1 : List ResourceModel → List ResourceModel × List String × List String
  | [] => ([], [], [])
  | r :: rest =>
      if r.tag = Tag.NONE then
        let t := envStopPass1 rest
        (r :: t.1, t.2.1, t.2.2)
      else
        let s := resourceStop r
        let t := envStopPass1 rest
        match s.2 with
        | some _ => (s.1 :: t.1, s.1.uid :: t.2.1, s.1.uid :: t.2.2)
        | none => (s.1 :: t.1, t.2.1, s.1.uid :: t.2.2)

/-- Second loop of `Environment.stop`: skip resources in `stop_exceptions`
or still at `NONE`, otherwise `wait(STOPPED)` (forced handler, exception
propagates). -/
def envStopPass2 (failed : List String) :
    List ResourceModel → List ResourceModel × Option PyErr
  | [] => ([], none)
  | r :: rest =>
      if r.uid ∈ failed then
        let t := envStopPass2 failed rest
        (r :: t.1, t.2)
      else if r.tag = Tag.NONE then
        let t := envStopPass2 failed rest
        (r :: t.1, t.2)
      else
        let w := resourceWaitStopped r
        match w.2 with
        | some e => (w.1 :: rest, some e)
        | none =>
            let t := envStopPass2 failed rest
            (w.1 :: t.1, t.2)

/-- `Environment.stop(reversed=...)`: iterate over the resource list,
reversed when requested, run both loops, and return the updated resources
in the original insertion order plus `stop_exceptions` uids, the
stop-invocation trace and any propagated exception. -/
def envStop (rs : List ResourceModel) (rev : Bool) :
    List ResourceModel × List String × List String × Option PyErr :=
  let it := if rev then rs.reverse else rs
  let p1 := envStopPass1 it
  let p2 := envStopPass2 p1.2.1 p1.1
  (if rev then p2.1.reverse else p2.1, p1.2.1, p1.2.2, p2.2)

/-- Effect of the first start pass on one successfully started resource. -/
def startPass1Res (r : ResourceModel) : ResourceModel :=
  if r.async_start then
    {r with tag := if r.startSets then Tag.STARTED else Tag.STARTING}
  else {r with tag := Tag.STARTED}

/-- Effect of the second start pass on one non-failed resource. -/
def startPass2Res (r : ResourceModel) : ResourceModel :=
  if r.async_start then {r with tag := Tag.STARTED} else r

lemma resourceStart_fresh (r : ResourceModel) (h1 : r.tag = Tag.NONE)
    (h2 : r.startRaises = false) :
    resourceStart r =
      ({r with tag := if r.startSets then Tag.STARTED else Tag.STARTING}, none) := by
  cases hs : r.startSets <;>
    simp [resourceStart, changeResult, transitionsOf, resourceTransitions, h1, h2, hs]

lemma resourceStart_fresh_raise (r : ResourceModel) (h1 : r.tag = Tag.NONE)
    (h2 : r.startRaises = true) :
    resourceStart r = ({r with tag := Tag.STARTING}, some (PyErr.userError "starting")) := by
  simp [resourceStart, changeResult, transitionsOf, resourceTransitions, h1, h2]

lemma resourceWaitStarted_ok (r : ResourceModel)
    (h : r.tag = Tag.STARTING ∨ r.tag = Tag.STARTED) :
    resourceWaitStarted r = ({r with tag := Tag.STARTED}, none) := by
  rcases h with h | h <;>
    simp [resourceWaitStarted, changeResult, transitionsOf, resourceTransitions, h]

lemma envStartPass1_ok_append (pre l : List ResourceModel)
    (h : ∀ r ∈ pre, r.tag = Tag.NONE ∧ r.startRaises = false) :
    envStartPass1 (pre ++ l) =
      (pre.map startPass1Res ++ (envStartPass1 l).1, (envStartPass1 l).2) := by
  induction pre with
  | nil => simp
  | cons r rest ih =>
      obtain ⟨h1, h2⟩ := h r (List.mem_cons_self r rest)
      have hrest := fun x hx => h x (List.mem_cons_of_mem r hx)
      cases ha : r.async_start <;> cases hs : r.startSets <;>
        simp [envStartPass1, resourceStart_fresh r h1 h2, ha, hs, ih hrest,
              startPass1Res, resourceWaitStarted, changeResult, transitionsOf,
              resourceTransitions]

lemma envStartPass2_ok_append (pre l : List ResourceModel) (failed : List String)
    (h : ∀ r ∈ pre, r.async_start = true → (r.tag = Tag.STARTING ∨ r.tag = Tag.STARTED))
    (hu : ∀ r ∈ pre, r.uid ∉ failed) :
    envStartPass2 failed (pre ++ l) =
      (pre.map startPass2Res ++ (envStartPass2 failed l).1,
       (pre.filter (fun r => r.async_start)).map (fun r => r.uid) ++
         (envStartPass2 failed l).2.1,
       (envStartPass2 failed l).2.2) := by
  induction pre with
  | nil => simp
  | cons r rest ih =>
      have h1 := h r (List.mem_cons_self r rest)
      have hu1 := hu r (List.mem_cons_self r rest)
      have hrest := fun x hx => h x (List.mem_cons_of_mem r hx)
      have hurest := fun x hx => hu x (List.mem_cons_of_mem r hx)
      cases ha : r.async_start
      · simp [envStartPass2, ha, ih hrest hurest, startPass2Res]
      · have htag := h1 ha
        have hw := resourceWaitStarted_ok r htag
        simp [envStartPass2, ha, hu1, hw, ih hrest hurest, startPass2Res]

lemma startPass2Res_comp (r : ResourceModel) :
    startPass2Res (startPass1Res r) = {r with tag := Tag.STARTED} := by
  cases ha : r.async_start <;> cases hs : r.startSets <;>
    simp [startPass1Res, startPass2Res, ha, hs]

lemma startPass1Res_async (r : ResourceModel) :
    (startPass1Res r).async_start = r.async_start := by
  cases ha : r.async_start <;> cases hs : r.startSets <;>
    simp [startPass1Res, ha, hs]

lemma startPass1Res_uid (r : ResourceModel) :
    (startPass1Res r).uid = r.uid := by
  cases ha : r.async_start <;> cases hs : r.startSets <;>
    simp [startPass1Res, ha, hs]

lemma startPass1Res_tag_async (r : ResourceModel) (h : r.async_start = true) :
    (startPass1Res r).tag = Tag.STARTING ∨ (startPass1Res r).tag = Tag.STARTED := by
  cases hs : r.startSets <;> simp [startPass1Res, h, hs]

lemma startPass1Res_filter_map (rs : List ResourceModel) :
    ((rs.map startPass1Res).filter (fun r => r.async_start)).map (fun r => r.uid) =
      (rs.filter (fun r => r.async_start)).map (fun r => r.uid) := by
  induction rs with
  | nil => rfl
  | cons r rest ih =>
      cases ha : r.async_start <;>
        simp [List.filter_cons, startPass1Res_async, ha, startPass1Res_uid, ih]

lemma startPass12_map (rs : List ResourceModel) :
    (rs.map startPass1Res).map startPass2Res =
      rs.map (fun r => {r with tag := Tag.STARTED}) := by
  rw [List.map_map]
  exact List.map_congr_left (fun r _ => startPass2Res_comp r)

/-- `envStart` on an environment of fresh resources whose `starting()`
hooks complete normally: every resource ends at `STARTED`, no recorded
failures, the wait pass covers exactly the async-start resources, and no
exception propagates. -/
lemma envStart_all_ok (rs : List ResourceModel)
    (h : ∀ r ∈ rs, r.tag = Tag.NONE ∧ r.startRaises = false) :
    envStart rs =
      (rs.map (fun r => {r with tag := Tag.STARTED}), [],
       (rs.filter (fun r => r.async_start)).map (fun r => r.uid), none) := by
  have h1 : envStartPass1 rs = (rs.map startPass1Res, []) := by
    have := envStartPass1_ok_append rs [] h
    simpa [envStartPass1] using this
  have h2 := envStartPass2_ok_append (rs.map startPass1Res) [] []
    (by
      intro x hx hax
      obtain ⟨r, hr, hrx⟩ := List.mem_map.mp hx
      subst hrx
      exact startPass1Res_tag_async r ((startPass1Res_async r) ▸ hax))
    (by intro x _ hx; simp at hx)
  simp only [List.append_nil] at h2
  simp [envStart, h1, h2, envStartPass2, startPass12_map, startPass2Res_comp,
        startPass1Res_filter_map]

/-- C3 (counterexample): with resources [a (sync-start, `starting()`
raises), b (async-start, fine)], the claim says the second wait pass skips
every resource past the halt point.  Instead, because the failed resource
is sync-start the pass `continue`s over it without hitting the `break`,
waits for `STARTED` on b — a resource past the halt point that was never
started — and the forced `NONE → STARTED` transition raises out of
`Environment.start`. -/
theorem envStart_wait_pass_past_halt :
    (envStart [mkResource "a" false true, mkResource "b" true false]).2.2.1 = ["b"] ∧
    (envStart [mkResource "a" false true, mkResource "b" true false]).2.2.2 =
      some (PyErr.statusTransition Tag.NONE Tag.STARTED) ∧
    (envStart [mkResource "a" false true, mkResource "b" true false]).2.1 = ["a"] := by
  decide

/-- C3 (amended): the claim holds when the failing resource is configured
with async-start (and uids are distinct, which `Environment.add`
guarantees): the failure is caught and recorded, no later resource is
started (the suffix is untouched, so fresh later resources remain at
NONE), the failing resource and every earlier one carry a non-NONE tag
(STARTING / STARTED), and the wait pass waits exactly on the async-start
resources before the halt point, skipping the failed resource and
everything after it; no exception propagates.  When the failing resource
is sync-start the wait pass instead runs past the halt point
(`envStart_wait_pass_past_halt`). -/
theorem envStart_halt_boundary (pre post : List ResourceModel) (f : ResourceModel)
    (hpre : ∀ r ∈ pre, r.tag = Tag.NONE ∧ r.startRaises = false ∧ r.uid ≠ f.uid)
    (hf1 : f.tag = Tag.NONE) (hf2 : f.startRaises = true)
    (hf3 : f.async_start = true) :
    envStart (pre ++ f :: post) =
      (pre.map (fun r => {r with tag := Tag.STARTED}) ++
         {f with tag := Tag.STARTING} :: post,
       [f.uid],
       (pre.filter (fun r => r.async_start)).map (fun r => r.uid),
       none) := by
  have hP1 := envStartPass1_ok_append pre (f :: post)
    (fun r hr => ⟨(hpre r hr).1, (hpre r hr).2.1⟩)
  have hEnv1 : envStartPass1 (f :: post) =
      ({f with tag := Tag.STARTING} :: post, [f.uid]) := by
    simp [envStartPass1, resourceStart_fresh_raise f hf1 hf2]
  have hP2 := envStartPass2_ok_append (pre.map startPass1Res)
    ({f with tag := Tag.STARTING} :: post) [f.uid]
    (by
      intro x hx hax
      obtain ⟨r, hr, hrx⟩ := List.mem_map.mp hx
      subst hrx
      exact startPass1Res_tag_async r ((startPass1Res_async r) ▸ hax))
    (by
      intro x hx
      obtain ⟨r, hr, hrx⟩ := List.mem_map.mp hx
      subst hrx
      simp [startPass1Res_uid, (hpre r hr).2.2])
  have hEnv2 : envStartPass2 [f.uid] ({f with tag := Tag.STARTING} :: post) =
      ({f with tag := Tag.STARTING} :: post, [], none) := by
    simp [envStartPass2, hf3]
  simp [envStart, hP1, hEnv1, hP2, hEnv2, startPass12_map, startPass2Res_comp,
        startPass1Res_filter_map]

/-- Witness for `envStart_halt_boundary` at a concrete input. -/
theorem envStart_halt_boundary_witness :
    (∀ r ∈ [mkResource "p" true false], r.tag = Tag.NONE ∧
        r.startRaises = false ∧ r.uid ≠ (mkResource "f" true true).uid) ∧
    (mkResource "f" true true).tag = Tag.NONE ∧
    (mkResource "f" true true).startRaises = true ∧
    (mkResource "f" true true).async_start = true ∧
    envStart [mkResource "p" true false, mkResource "f" true true,
              mkResource "q" true false] =
      ([mkResource "p" true false].map (fun r => {r with tag := Tag.STARTED}) ++
         {mkResource "f" true true with tag := Tag.STARTING} ::
           [mkResource "q" true false],
       [(mkResource "f" true true).uid],
       ([mkResource "p" true false].filter (fun r => r.async_start)).map
         (fun r => r.uid),
       none) :=
  ⟨by decide, by decide, by decide, by decide,
   envStart_halt_boundary [mkResource "p" true false] [mkResource "q" true false]
     (mkResource "f" true true) (by decide) (by decide) (by decide) (by decide)⟩

lemma resourceStop_uid (r : ResourceModel) : (resourceStop r).1.uid = r.uid := by
  unfold resourceStop
  cases hc : (changeResult StatusKind.resource r.tag Tag.STOPPING).2
  all_goals simp only [hc]
  all_goals split <;> (try split) <;> (try split) <;> simp

/-- Trace of `stop()` invocations in the first stop loop: exactly the
resources whose tag is not `NONE`, in iteration order. -/
lemma envStopPass1_trace (rs : List ResourceModel) :
    (envStopPass1 rs).2.2 =
      (rs.filter (fun r => r.tag != Tag.NONE)).map (fun r => r.uid) := by
  induction rs with
  | nil => rfl
  | cons r rest ih =>
      by_cases hn : r.tag = Tag.NONE
      · simp [envStopPass1, hn, List.filter_cons, ih]
      · cases hc : (resourceStop r).2 <;>
          simp [envStopPass1, hn, List.filter_cons, bne_iff_ne, hc,
                resourceStop_uid, ih]

/-- `stop_exceptions` after the first stop loop: exactly the attempted
resources whose `stop()` raised, in iteration order. -/
lemma envStopPass1_exs (rs : List ResourceModel) :
    (envStopPass1 rs).2.1 =
      (rs.filter (fun r => r.tag != Tag.NONE && ((resourceStop r).2).isSome)).map
        (fun r => r.uid) := by
  induction rs with
  | nil => rfl
  | cons r rest ih =>
      by_cases hn : r.tag = Tag.NONE
      · simp [envStopPass1, hn, List.filter_cons, ih]
      · cases hc : (resourceStop r).2 <;>
          simp [envStopPass1, hn, List.filter_cons, bne_iff_ne, hc,
                resourceStop_uid, ih]

/-- C5: `Environment.stop(reversed=True)` on resources added in order
[A, B, C], all with non-NONE tags, invokes `stop()` on C, then B, then A;
every one of them is attempted even when some `stop()` raises, each raised
error being recorded in `stop_exceptions` without halting; and in general
the stop loop attempts exactly the resources whose tag is not NONE,
skipping NONE-tagged ones entirely. -/
theorem envStop_reversed_order (A B C : ResourceModel)
    (hA : A.tag ≠ Tag.NONE) (hB : B.tag ≠ Tag.NONE) (hC : C.tag ≠ Tag.NONE) :
    (envStop [A, B, C] true).2.2.1 = [C.uid, B.uid, A.uid] ∧
    (envStop [A, B, C] true).2.1 =
      (([C, B, A].filter (fun r => ((resourceStop r).2).isSome)).map
        (fun r => r.uid)) ∧
    (∀ (rs : List ResourceModel) (rev : Bool),
      (envStop rs rev).2.2.1 =
        (((if rev then rs.reverse else rs).filter
            (fun r => r.tag != Tag.NONE)).map (fun r => r.uid))) := by
  refine ⟨?_, ?_, ?_⟩
  · simp [envStop, envStopPass1_trace, List.filter_cons, bne_iff_ne, hA, hB, hC]
  · simp [envStop, envStopPass1_exs, List.filter_cons, bne_iff_ne, hA, hB, hC]
  · intro rs rev
    simp [envStop, envStopPass1_trace]

/-- Started resource used in concrete stop scenarios. -/
def resA : ResourceModel := {mkResource "a" true false with tag := Tag.STARTED}

/-- Started resource whose `stopping()` hook raises. -/
def resB : ResourceModel :=
  {mkResource "b" true false with tag := Tag.STARTED, stopRaises := true}

/-- Started resource used in concrete stop scenarios. -/
def resC : ResourceModel := {mkResource "c" true false with tag := Tag.STARTED}

/-- Witness for `envStop_reversed_order` at a concrete input (B's
`stopping()` raises; all three still get a stop attempt, C then B then
A, and B is recorded in `stop_exceptions`). -/
theorem envStop_reversed_order_witness :
    resA.tag ≠ Tag.NONE ∧ resB.tag ≠ Tag.NONE ∧ resC.tag ≠ Tag.NONE ∧
    ((envStop [resA, resB, resC] true).2.2.1 = [resC.uid, resB.uid, resA.uid] ∧
     (envStop [resA, resB, resC] true).2.1 =
       (([resC, resB, resA].filter (fun r => ((resourceStop r).2).isSome)).map
         (fun r => r.uid)) ∧
     (∀ (rs : List ResourceModel) (rev : Bool),
       (envStop rs rev).2.2.1 =
         (((if rev then rs.reverse else rs).filter
             (fun r => r.tag != Tag.NONE)).map (fun r => r.uid)))) :=
  ⟨by decide, by decide, by decide,
   envStop_reversed_order resA resB resC (by decide) (by decide) (by decide)⟩

/-- Effect of the first stop pass on one cleanly stopping resource. -/
def stopPass1Res (r : ResourceModel) : ResourceModel :=
  {r with tag := if r.stopSets then Tag.STOPPED else Tag.STOPPING}

lemma resourceStop_started_ok (r : ResourceModel) (h1 : r.tag = Tag.STARTED)
    (h2 : r.stopRaises = false) (h3 : r.shouldAbort = false)
    (h4 : r.abortedFlag = false) :
    resourceStop r = (stopPass1Res r, none) := by
  cases hs : r.stopSets <;>
    simp [resourceStop, stopPass1Res, ResourceModel.active, changeResult,
          transitionsOf, resourceTransitions, h1, h2, h3, h4, hs]

lemma resourceWaitStopped_ok (r : ResourceModel)
    (h : r.tag = Tag.STOPPING ∨ r.tag = Tag.STOPPED) :
    resourceWaitStopped r = ({r with tag := Tag.STOPPED}, none) := by
  rcases h with h | h <;>
    simp [resourceWaitStopped, changeResult, transitionsOf, resourceTransitions, h]

lemma envStopPass1_all_ok (rs : List ResourceModel)
    (h : ∀ r ∈ rs, r.tag = Tag.STARTED ∧ r.stopRaises = false ∧
         r.shouldAbort = false ∧ r.abortedFlag = false) :
    envStopPass1 rs = (rs.map stopPass1Res, [], rs.map (fun r => r.uid)) := by
  induction rs with
  | nil => rfl
  | cons r rest ih =>
      obtain ⟨h1, h2, h3, h4⟩ := h r (List.mem_cons_self r rest)
      have hrest := fun x hx => h x (List.mem_cons_of_mem r hx)
      have hs := resourceStop_started_ok r h1 h2 h3 h4
      have hu : (stopPass1Res r).uid = r.uid := by
        cases hss : r.stopSets <;> simp [stopPass1Res, hss]
      simp [envStopPass1, h1, hs, hu, ih hrest]

lemma envStopPass2_all_ok (rs : List ResourceModel)
    (h : ∀ r ∈ rs, r.tag = Tag.STOPPING ∨ r.tag = Tag.STOPPED) :
    envStopPass2 [] rs =
      (rs.map (fun r => {r with tag := Tag.STOPPED}), none) := by
  induction rs with
  | nil => rfl
  | cons r rest ih =>
      have h1 := h r (List.mem_cons_self r rest)
      have hrest := fun x hx => h x (List.mem_cons_of_mem r hx)
      have hn : ¬ r.tag = Tag.NONE := by rcases h1 with h1 | h1 <;> simp [h1]
      simp [envStopPass2, hn, resourceWaitStopped_ok r h1, ih hrest]

lemma stopPass12_map (rs : List ResourceModel) :
    (rs.map stopPass1Res).map (fun r => {r with tag := Tag.STOPPED}) =
      rs.map (fun r => {r with tag := Tag.STOPPED}) := by
  rw [List.map_map]
  refine List.map_congr_left (fun r _ => ?_)
  cases hs : r.stopSets <;> simp [stopPass1Res, hs]

/-- `envStop` on an environment of started resources whose `stopping()`
hooks complete normally: every resource ends at `STOPPED`, nothing is
recorded in `stop_exceptions`, every resource gets a stop attempt and no
exception propagates. -/
lemma envStop_all_ok (rs : List ResourceModel) (rev : Bool)
    (h : ∀ r ∈ rs, r.tag = Tag.STARTED ∧ r.stopRaises = false ∧
         r.shouldAbort = false ∧ r.abortedFlag = false) :
    envStop rs rev =
      (rs.map (fun r => {r with tag := Tag.STOPPED}), [],
       (if rev then rs.reverse else rs).map (fun r => r.uid), none) := by
  have hit : ∀ r ∈ (if rev then rs.reverse else rs), r.tag = Tag.STARTED ∧
      r.stopRaises = false ∧ r.shouldAbort = false ∧ r.abortedFlag = false := by
    intro r hr
    cases rev <;> simp_all [List.mem_reverse]
  have h1 := envStopPass1_all_ok _ hit
  have h2 := envStopPass2_all_ok ((if rev then rs.reverse else rs).map stopPass1Res)
    (by
      intro x hx
      obtain ⟨r, hr, hrx⟩ := List.mem_map.mp hx
      subst hrx
      cases hs : r.stopSets <;> simp [stopPass1Res, hs])
  cases rev
  · simp at h1 h2
    simp [envStop, h1, h2, stopPass12_map, stopPass1Res]
  · simp only [List.map_reverse] at h2
    simp at h1 h2
    simp [envStop, h1, h2, stopPass12_map, List.map_reverse, stopPass1Res]

lemma resourceStart_from_stopped (r : ResourceModel) (h1 : r.tag = Tag.STOPPED)
    (h2 : r.startRaises = false) : (resourceStart r).2 = none := by
  cases hs : r.startSets <;>
    simp [resourceStart, changeResult, transitionsOf, resourceTransitions,
          h1, h2, hs]

/-- C9: starting and then stopping an Environment of fresh resources whose
start and stop hooks complete normally records no start or stop failures,
propagates no exception, leaves every contained resource at the STOPPED
tag, a subsequent `start()` on each such resource succeeds, and
STOPPED → STARTING is a declared transition of the Resource table. -/
theorem env_start_stop_roundtrip (rs : List ResourceModel) (rev : Bool)
    (h : ∀ r ∈ rs, r.tag = Tag.NONE ∧ r.startRaises = false ∧
         r.stopRaises = false ∧ r.shouldAbort = false ∧ r.abortedFlag = false) :
    (envStart rs).2.1 = [] ∧ (envStart rs).2.2.2 = none ∧
    (envStop (envStart rs).1 rev).2.1 = [] ∧
    (envStop (envStart rs).1 rev).2.2.2 = none ∧
    (∀ r ∈ (envStop (envStart rs).1 rev).1,
      r.tag = Tag.STOPPED ∧ (resourceStart r).2 = none ∧
      (changeResult StatusKind.resource r.tag Tag.STARTING).2 = none) ∧
    Tag.STARTING ∈ legalSucc StatusKind.resource Tag.STOPPED := by
  have hstart := envStart_all_ok rs (fun r hr => ⟨(h r hr).1, (h r hr).2.1⟩)
  have hstarted : ∀ x ∈ (envStart rs).1, x.tag = Tag.STARTED ∧
      x.stopRaises = false ∧ x.shouldAbort = false ∧ x.abortedFlag = false := by
    rw [hstart]
    intro x hx
    obtain ⟨r, hr, hrx⟩ := List.mem_map.mp hx
    subst hrx
    exact ⟨rfl, (h r hr).2.2.1, (h r hr).2.2.2.1, (h r hr).2.2.2.2⟩
  have hstop := envStop_all_ok (envStart rs).1 rev hstarted
  refine ⟨by rw [hstart], by rw [hstart], by rw [hstop], by rw [hstop], ?_, by decide⟩
  rw [hstop, hstart]
  intro x hx
  simp only [List.map_map, List.mem_map] at hx
  obtain ⟨r, hr, hrx⟩ := hx
  subst hrx
  refine ⟨rfl, ?_, by
    simp [changeResult, transitionsOf, resourceTransitions]⟩
  exact resourceStart_from_stopped _ rfl (h r hr).2.1

/-- Witness for `env_start_stop_roundtrip` at a concrete input. -/
theorem env_start_stop_roundtrip_witness :
    (∀ r ∈ [mkResource "a" true false, mkResource "b" false false],
      r.tag = Tag.NONE ∧ r.startRaises = false ∧ r.stopRaises = false ∧
      r.shouldAbort = false ∧ r.abortedFlag = false) ∧
    ((envStart [mkResource "a" true false, mkResource "b" false false]).2.1 = [] ∧
     (envStart [mkResource "a" true false, mkResource "b" false false]).2.2.2 = none ∧
     (envStop (envStart [mkResource "a" true false,
        mkResource "b" false false]).1 true).2.1 = [] ∧
     (envStop (envStart [mkResource "a" true false,
        mkResource "b" false false]).1 true).2.2.2 = none ∧
     (∀ r ∈ (envStop (envStart [mkResource "a" true false,
          mkResource "b" false false]).1 true).1,
       r.tag = Tag.STOPPED ∧ (resourceStart r).2 = none ∧
       (changeResult StatusKind.resource r.tag Tag.STARTING).2 = none) ∧
     Tag.STARTING ∈ legalSucc StatusKind.resource Tag.STOPPED) :=
  ⟨by decide,
   env_start_stop_roundtrip [mkResource "a" true false, mkResource "b" false false]
     true (by decide)⟩

/-- Behaviour of one queued step: it returns a value or raises. -/
inductive StepBeh
  | ret (v : PyVal)
  | raise (e : PyErr)
deriving DecidableEq, Repr

/-- One queued step: the callable's `__name__` and its behaviour. -/
structure Step where
  name : String
  beh : StepBeh
deriving DecidableEq, Repr

/-- Value stored by `_execute_step` for a step: the return value, or the
caught exception itself. -/
def stepOutcome : StepBeh → PyVal
  | .ret v => v
  | .raise e => PyVal.exc e

/-- `OrderedDict` assignment `d[k] = v`: update in place if the key
exists, else append at the end. -/
def recordResult : List (String × PyVal) → String → PyVal → List (String × PyVal)
  | [], k, v => [(k, v)]
  | (k0, v0) :: rest, k, v =>
      if k0 = k then (k0, v) :: rest else (k0, v0) :: recordResult rest k v

/-- `OrderedDict` lookup returning `none` when the key is absent. -/
def lookupRes : List (String × PyVal) → String → Option PyVal
  | [], _ => none
  | (k0, v0) :: rest, k => if k0 = k then some v0 else lookupRes rest k

/-- State of a `Runnable` during its step loop. -/
structure RunnableModel where
  tag : Tag
  stepResults : List (String × PyVal)
  shouldAbort : Bool
  abortedFlag : Bool
deriving DecidableEq, Repr

/-- A freshly constructed Runnable. -/
def mkRunnable : RunnableModel :=
  { tag := Tag.NONE, stepResults := [], shouldAbort := false,
    abortedFlag := false }

/-- `Entity.active` for a Runnable. -/
def RunnableModel.active (m : RunnableModel) : Bool :=
  !m.shouldAbort && !m.abortedFlag

/-- The `while self.active` body of `Runnable._run` with the queue as the
remaining step list: each popped step is executed by `_execute_step`,
which catches any raise and stores the outcome under the step's name; on
an empty queue the `IndexError` branch transitions to FINISHED and breaks
(that transition's own failure would propagate, second component). -/
def runLoop : RunnableModel → List Step → RunnableModel × Option PyErr
  | m, steps =>
      if m.active then
        match steps with
        | [] =>
            let c := changeResult StatusKind.runnable m.tag Tag.FINISHED
            ({m with tag := c.1}, c.2)
        | s :: rest =>
            runLoop
              {m with stepResults :=
                recordResult m.stepResults s.name (stepOutcome s.beh)} rest
      else (m, none)

/-- `Runnable._run`: transition to RUNNING (a failure propagates), then
drain the queue via the loop. -/
def runnableRun (m : RunnableModel) (steps : List Step) :
    RunnableModel × Option PyErr :=
  let c := changeResult StatusKind.runnable m.tag Tag.RUNNING
  match c.2 with
  | some e => ({m with tag := c.1}, some e)
  | none => runLoop {m with tag := c.1} steps

lemma runLoop_active (m : RunnableModel) (h1 : m.shouldAbort = false)
    (h2 : m.abortedFlag = false) (h3 : m.tag = Tag.RUNNING) :
    ∀ steps : List Step,
      runLoop m steps =
        ({m with
           tag := Tag.FINISHED,
           stepResults := steps.foldl
             (fun acc s => recordResult acc s.name (stepOutcome s.beh))
             m.stepResults}, none) := by
  intro steps
  induction steps generalizing m with
  | nil =>
      simp [runLoop, RunnableModel.active, h1, h2, h3, changeResult,
            transitionsOf, runnableTransitions]
  | cons s rest ih =>
      rw [runLoop]
      simp only [RunnableModel.active, h1, h2, Bool.not_false, Bool.and_self,
                 if_pos]
      have hrec := ih
        ⟨m.tag, recordResult m.stepResults s.name (stepOutcome s.beh),
         false, false⟩ rfl rfl h3
      rw [hrec]
      simp

/-- C4: a step that raises has the error captured as its recorded result,
later steps still run, and an emptied queue transitions the Runnable to
FINISHED.  In particular on a fresh Runnable with steps [s1 (raises e),
s2 (returns True)] and distinct step names, s1's recorded result is the
captured error, s2's is True, the status is FINISHED and nothing
propagates; and in general, for any queue of steps run on a fresh
Runnable, every queued step's outcome is recorded in order and the final
status is FINISHED with no propagated exception. -/
theorem run_step_isolation (n1 n2 : String) (e : PyErr) (hne : n1 ≠ n2) :
    (lookupRes (runnableRun mkRunnable
        [⟨n1, StepBeh.raise e⟩, ⟨n2, StepBeh.ret (PyVal.bool true)⟩]).1.stepResults
      n1 = some (PyVal.exc e) ∧
     lookupRes (runnableRun mkRunnable
        [⟨n1, StepBeh.raise e⟩, ⟨n2, StepBeh.ret (PyVal.bool true)⟩]).1.stepResults
      n2 = some (PyVal.bool true) ∧
     (runnableRun mkRunnable
        [⟨n1, StepBeh.raise e⟩, ⟨n2, StepBeh.ret (PyVal.bool true)⟩]).1.tag =
       Tag.FINISHED ∧
     (runnableRun mkRunnable
        [⟨n1, StepBeh.raise e⟩, ⟨n2, StepBeh.ret (PyVal.bool true)⟩]).2 = none) ∧
    (∀ steps : List Step,
      runnableRun mkRunnable steps =
        ({mkRunnable with
           tag := Tag.FINISHED,
           stepResults := steps.foldl
             (fun acc s => recordResult acc s.name (stepOutcome s.beh)) []},
         none)) := by
  have hgen : ∀ steps : List Step,
      runnableRun mkRunnable steps =
        ({mkRunnable with
           tag := Tag.FINISHED,
           stepResults := steps.foldl
             (fun acc s => recordResult acc s.name (stepOutcome s.beh)) []},
         none) := by
    intro steps
    have hc : changeResult StatusKind.runnable mkRunnable.tag Tag.RUNNING =
        (Tag.RUNNING, none) := by decide
    rw [runnableRun, hc]
    exact runLoop_active _ rfl rfl rfl steps
  refine ⟨?_, hgen⟩
  rw [hgen]
  simp [recordResult, stepOutcome, lookupRes, hne, Ne.symm hne]

/-- Witness for `run_step_isolation` at concrete step names. -/
theorem run_step_isolation_witness :
    "s1" ≠ "s2" ∧
    ((lookupRes (runnableRun mkRunnable
        [⟨"s1", StepBeh.raise PyErr.indexError⟩,
         ⟨"s2", StepBeh.ret (PyVal.bool true)⟩]).1.stepResults
      "s1" = some (PyVal.exc PyErr.indexError) ∧
     lookupRes (runnableRun mkRunnable
        [⟨"s1", StepBeh.raise PyErr.indexError⟩,
         ⟨"s2", StepBeh.ret (PyVal.bool true)⟩]).1.stepResults
      "s2" = some (PyVal.bool true) ∧
     (runnableRun mkRunnable
        [⟨"s1", StepBeh.raise PyErr.indexError⟩,
         ⟨"s2", StepBeh.ret (PyVal.bool true)⟩]).1.tag = Tag.FINISHED ∧
     (runnableRun mkRunnable
        [⟨"s1", StepBeh.raise PyErr.indexError⟩,
         ⟨"s2", StepBeh.ret (PyVal.bool true)⟩]).2 = none) ∧
    (∀ steps : List Step,
      runnableRun mkRunnable steps =
        ({mkRunnable with
           tag := Tag.FINISHED,
           stepResults := steps.foldl
             (fun acc s => recordResult acc s.name (stepOutcome s.beh)) []},
         none))) :=
  ⟨by decide, run_step_isolation "s1" "s2" PyErr.indexError (by decide)⟩

/-- Python `isinstance(val, Exception)`. -/
def isException : PyVal → Bool
  | .exc _ => true
  | _ => false

/-- Python `val is False`: identity with the `False` singleton (an int 0
or empty value is NOT `is False`). -/
def isLiterallyFalse : PyVal → Bool
  | .bool false => true
  | _ => false

/-- `Runnable.run_result`: `all(not isinstance(val, Exception) and val is
not False for val in self._result.step_results.values())`. -/
def run_result (results : List (String × PyVal)) : Bool :=
  results.all (fun p => !(isException p.2) && !(isLiterallyFalse p.2))

/-- C6: `run_result()` is true iff every recorded step result is neither
an error object nor literally `False`; in particular {a: True, b: 5} gives
true, {a: True, b: False} gives false, and {a: RuntimeError(...)} gives
false. -/
theorem run_result_iff :
    (∀ results : List (String × PyVal),
      run_result results = true ↔
        ∀ p ∈ results, isException p.2 = false ∧ isLiterallyFalse p.2 = false) ∧
    run_result [("a", PyVal.bool true), ("b", PyVal.int 5)] = true ∧
    run_result [("a", PyVal.bool true), ("b", PyVal.bool false)] = false ∧
    run_result [("a", PyVal.exc (PyErr.runtimeError "err"))] = false := by
  refine ⟨?_, by decide, by decide, by decide⟩
  intro results
  simp [run_result, List.all_eq_true]

/-- The kinds of steps `run()` / `_run_batch_steps` enqueue: `setup`, the
bound method `resources.start` (step name "start"), user steps added by
`main_batch_steps`, the bound method `resources.stop` (step name "stop",
invoked with reversed=True) and `teardown`.  The default
`pre_resource_steps` / `post_resource_steps` hooks add nothing. -/
inductive RStep
  | setup
  | envStartStep
  | user (name : String) (beh : StepBeh)
  | envStopStep
  | teardown
deriving DecidableEq, Repr

/-- State of a Runnable running its batch pipeline: status tag, recorded
step results, owned environment with its failure maps, the trace of
executed steps in execution order, and the abort flags. -/
structure BatchState where
  tag : Tag
  results : List (String × PyVal)
  env : List ResourceModel
  startExs : List String
  stopExs : List String
  executed : List RStep
  shouldAbort : Bool
  abortedFlag : Bool
deriving DecidableEq, Repr

/-- `Entity.active` for the batch state. -/
def BatchState.active (st : BatchState) : Bool :=
  !st.shouldAbort && !st.abortedFlag

/-- `Runnable._execute_step` on one pipeline step: hooks return `None`;
`resources.start` / `resources.stop(reversed=True)` run on the owned
environment, a propagated environment exception being caught and stored as
the step result; each outcome is recorded under the step's `__name__`. -/
def execRStep (st : BatchState) (s : RStep) : BatchState :=
  match s with
  | .setup =>
      {st with
        results := recordResult st.results "setup" PyVal.none,
        executed := st.executed ++ [RStep.setup]}
  | .envStartStep =>
      let e := envStart st.env
      let res := match e.2.2.2 with
        | some err => PyVal.exc err
        | none => PyVal.none
      {st with
        env := e.1, startExs := e.2.1,
        results := recordResult st.results "start" res,
        executed := st.executed ++ [RStep.envStartStep]}
  | .user n b =>
      {st with
        results := recordResult st.results n (stepOutcome b),
        executed := st.executed ++ [RStep.user n b]}
  | .envStopStep =>
      let e := envStop st.env true
      let res := match e.2.2.2 with
        | some err => PyVal.exc err
        | none => PyVal.none
      {st with
        env := e.1, stopExs := e.2.1,
        results := recordResult st.results "stop" res,
        executed := st.executed ++ [RStep.envStopStep]}
  | .teardown =>
      {st with
        results := recordResult st.results "teardown" PyVal.none,
        executed := st.executed ++ [RStep.teardown]}

/-- The `Runnable._run` loop over the batch pipeline queue; the
`IndexError` branch on an emptied queue transitions to FINISHED (that
transition's own failure would propagate, second component). -/
def batchLoop : BatchState → List RStep → BatchState × Option PyErr
  | st, q =>
      if st.active then
        match q with
        | [] =>
            let c := changeResult StatusKind.runnable st.tag Tag.FINISHED
            ({st with tag := c.1}, c.2)
        | s :: rest => batchLoop (execRStep st s) rest
      else (st, none)

/-- `Runnable.run()` with `interactive=False`: appends `setup`; then
`_run_batch_steps` appends `resources.start`, the user steps, and
`resources.stop(reversed=True)`, and runs the loop itself; only after
`_run_batch_steps` has returned does `run()` append `teardown`, so
`teardown` lands in the queue after the loop has already drained it.
Returns the final state, the steps left unexecuted in the queue, and the
`result.run` value (`True` iff the loop reached FINISHED and
`run_result()` holds, or the exception caught above the loop). -/
def runnableRunBatch (env0 : List ResourceModel)
    (users : List (String × StepBeh)) : BatchState × List RStep × PyVal :=
  let st0 : BatchState :=
    { tag := Tag.NONE, results := [], env := env0, startExs := [],
      stopExs := [], executed := [], shouldAbort := false,
      abortedFlag := false }
  let queue := [RStep.setup, RStep.envStartStep] ++
    users.map (fun u => RStep.user u.1 u.2) ++ [RStep.envStopStep]
  let c := changeResult StatusKind.runnable st0.tag Tag.RUNNING
  match c.2 with
  | some err => ({st0 with tag := c.1}, queue, PyVal.exc err)
  | none =>
      let res := batchLoop {st0 with tag := c.1} queue
      match res.2 with
      | some err => (res.1, [], PyVal.exc err)
      | none =>
          (res.1, [RStep.teardown],
           PyVal.bool ((res.1.tag == Tag.FINISHED) && run_result res.1.results))

lemma execRStep_flags (st : BatchState) (s : RStep) :
    (execRStep st s).shouldAbort = st.shouldAbort ∧
    (execRStep st s).abortedFlag = st.abortedFlag ∧
    (execRStep st s).tag = st.tag ∧
    (execRStep st s).executed = st.executed ++ [s] := by
  cases s <;> simp [execRStep]

lemma batchLoop_drains (st : BatchState) (h1 : st.shouldAbort = false)
    (h2 : st.abortedFlag = false) (h3 : st.tag = Tag.RUNNING) :
    ∀ q : List RStep,
      (batchLoop st q).2 = none ∧
      (batchLoop st q).1.executed = st.executed ++ q ∧
      (batchLoop st q).1.tag = Tag.FINISHED := by
  intro q
  induction q generalizing st with
  | nil =>
      simp [batchLoop, BatchState.active, h1, h2, h3, changeResult,
            transitionsOf, runnableTransitions]
  | cons s rest ih =>
      rw [batchLoop]
      simp only [BatchState.active, h1, h2, Bool.not_false, Bool.and_self,
                 if_pos]
      obtain ⟨f1, f2, f3, f4⟩ := execRStep_flags st s
      have := ih (execRStep st s) (f1.trans h1) (f2.trans h2) (f3.trans h3)
      refine ⟨this.1, ?_, this.2.2⟩
      rw [this.2.1, f4, List.append_assoc]
      rfl

/-- C1 (code bug): with `interactive=False` the pipeline executed is
exactly setup, `resources.start`, the user batch steps, then
`resources.stop(reversed=True)` — but `teardown` is never executed: it is
appended to the queue only after `_run_batch_steps` has already run the
loop to FINISHED, so it stays in the queue, no "teardown" result is
recorded, and (concretely, with no resources and no user steps) the
overall `run` field is still set to True. -/
theorem run_teardown_not_executed :
    (∀ (env0 : List ResourceModel) (users : List (String × StepBeh)),
      (runnableRunBatch env0 users).1.executed =
        [RStep.setup, RStep.envStartStep] ++
          users.map (fun u => RStep.user u.1 u.2) ++ [RStep.envStopStep] ∧
      RStep.teardown ∉ (runnableRunBatch env0 users).1.executed ∧
      (runnableRunBatch env0 users).2.1 = [RStep.teardown] ∧
      (runnableRunBatch env0 users).1.tag = Tag.FINISHED) ∧
    lookupRes (runnableRunBatch [] []).1.results "teardown" = none ∧
    (runnableRunBatch [] []).2.2 = PyVal.bool true := by
  refine ⟨?_, by decide, by decide⟩
  intro env0 users
  have hc : changeResult StatusKind.runnable Tag.NONE Tag.RUNNING =
      (Tag.RUNNING, none) := by decide
  obtain ⟨hd1, hd2, hd3⟩ := batchLoop_drains
    { tag := Tag.RUNNING, results := [], env := env0, startExs := [],
      stopExs := [], executed := [], shouldAbort := false,
      abortedFlag := false } rfl rfl rfl
    ([RStep.setup, RStep.envStartStep] ++
      users.map (fun u => RStep.user u.1 u.2) ++ [RStep.envStopStep])
  refine ⟨?_, ?_, ?_, ?_⟩
  · simp only [runnableRunBatch, hc, hd1]
    rw [hd2]
    simp
  · simp only [runnableRunBatch, hc, hd1]
    rw [hd2]
    simp
  · simp only [runnableRunBatch, hc, hd1]
  · simp only [runnableRunBatch, hc, hd1]
    exact hd3

/-- Events in an abort cascade, in the order they occur. -/
inductive AbortEv
  | setShouldAbort
  | depAbortCall (uid : String)
  | depWaitDone (uid : String) (ok : Bool)
  | abortingHook
  | setAborted
deriving DecidableEq, Repr

/-- `Entity.abort` of one owned Resource (a Resource declares no
dependencies of its own, and inherits the default logging `aborting()`
hook): sets `_should_abort`, runs the hook, sets `_aborted`. -/
def resourceAbort (r : ResourceModel) : ResourceModel :=
  {r with shouldAbort := true, abortedFlag := true}

/-- The dependency loop of `Entity.abort`: for each dependency,
`_abort_entity` calls its `abort()` (a Resource abort raises nothing) and
then waits up to `abort_wait_timeout` for its `aborted` flag, which has
just been set, so the wait reports success. -/
def abortDeps : List ResourceModel → List ResourceModel × List AbortEv
  | [] => ([], [])
  | r :: rest =>
      let r1 := resourceAbort r
      let t := abortDeps rest
      (r1 :: t.1,
       AbortEv.depAbortCall r.uid ::
         AbortEv.depWaitDone r1.uid r1.abortedFlag :: t.2)

/-- `Entity.abort` on a Runnable whose `abort_dependencies()` yields its
owned resources in Environment order: `_should_abort := True`, abort every
dependency (each followed by its wait), run the `aborting()` hook, then
`_aborted := True`.  Returns the Runnable, its resources, and the event
trace in execution order. -/
def runnableAbort (m : RunnableModel) (rs : List ResourceModel) :
    RunnableModel × List ResourceModel × List AbortEv :=
  let m1 := {m with shouldAbort := true}
  let t := abortDeps rs
  let m2 := {m1 with abortedFlag := true}
  (m2, t.1,
   (AbortEv.setShouldAbort :: t.2) ++ [AbortEv.abortingHook, AbortEv.setAborted])

lemma abortDeps_trace (rs : List ResourceModel) :
    (abortDeps rs).2 =
      rs.flatMap (fun r =>
        [AbortEv.depAbortCall r.uid, AbortEv.depWaitDone r.uid true]) := by
  induction rs with
  | nil => rfl
  | cons r rest ih => simp [abortDeps, resourceAbort, ih]

lemma abortDeps_aborted (rs : List ResourceModel) :
    ∀ r ∈ (abortDeps rs).1, r.abortedFlag = true := by
  induction rs with
  | nil => simp [abortDeps]
  | cons r rest ih =>
      intro x hx
      rw [abortDeps] at hx
      rcases List.mem_cons.mp hx with hx | hx
      · subst hx; rfl
      · exact ih x hx

/-- C7: aborting a Runnable first sets the should-abort flag, then calls
`abort()` on every owned resource in order, each immediately followed by a
successful bounded wait for that resource's aborted flag, all before the
Runnable's own `aborting()` hook, and the Runnable's aborted flag is set
only after all dependency aborts and waits, as the last event; afterwards
every resource and the Runnable itself report aborted. -/
theorem runnable_abort_order :
    ∀ (m : RunnableModel) (rs : List ResourceModel),
      (runnableAbort m rs).2.2 =
        AbortEv.setShouldAbort ::
          (rs.flatMap (fun r =>
            [AbortEv.depAbortCall r.uid, AbortEv.depWaitDone r.uid true]) ++
           [AbortEv.abortingHook, AbortEv.setAborted]) ∧
      (runnableAbort m rs).1.abortedFlag = true ∧
      (runnableAbort m rs).1.shouldAbort = true ∧
      (∀ r ∈ (runnableAbort m rs).2.1, r.abortedFlag = true) := by
  intro m rs
  exact ⟨by simp [runnableAbort, abortDeps_trace], rfl, rfl,
         by simpa [runnableAbort] using abortDeps_aborted rs⟩

/-- Modelled from the spec: `testplan.common.utils.timing.wait` (the
module is not part of the sources here) blocks, polling a predicate at a
fixed interval, until the predicate holds or the timeout elapses, and
returns success/failure instead of raising.  The predicate is sampled once
per poll tick; `timeout` is the number of ticks within the deadline. -/
def pollWait (p : Nat → Bool) (timeout : Nat) : Bool :=
  (List.range (timeout + 1)).any p

/-- `Entity.wait` when no custom wait handler is registered for the target
status: it calls the timing utility on `status.tag == target_status` with
the stream of tag values observed at each poll, DISCARDS the utility's
boolean and returns `None` (hence the `Unit` result). -/
def entityWait (stream : Nat → Tag) (target : Tag) (timeout : Nat) : Unit :=
  let _ := pollWait (fun i => stream i == target) timeout
  ()

/-- C8 (counterexample): on a resource whose tag never becomes STARTED the
poll times out (`pollWait` is false), while on one already STARTED it
succeeds (`pollWait` is true) — yet `Entity.wait` returns the very same
value (`None`) in both cases, so the caller receives no success/failure
indication, contrary to the claim. -/
theorem entityWait_no_indication :
    pollWait (fun i => (fun _ : Nat => Tag.NONE) i == Tag.STARTED) 5 = false ∧
    pollWait (fun i => (fun _ : Nat => Tag.STARTED) i == Tag.STARTED) 5 = true ∧
    entityWait (fun _ => Tag.NONE) Tag.STARTED 5 =
      entityWait (fun _ => Tag.STARTED) Tag.STARTED 5 := by
  exact ⟨by decide, by decide, rfl⟩

/-- C8 (amended): with no custom handler, `wait(target_status, timeout)`
polls until the status tag equals the target or the timeout elapses and
never raises on timeout — it always returns normally (`None`); the
success/failure indication exists only as the underlying timing utility's
boolean (true iff some poll within the timeout saw the target), which
`Entity.wait` discards rather than returning to the caller. -/
theorem entityWait_poll_amended :
    ∀ (stream : Nat → Tag) (target : Tag) (timeout : Nat),
      entityWait stream target timeout = () ∧
      (pollWait (fun i => stream i == target) timeout = true ↔
        ∃ i, i ≤ timeout ∧ stream i = target) := by
  intro stream target timeout
  refine ⟨rfl, ?_⟩
  simp only [pollWait, List.any_eq_true, List.mem_range, beq_iff_eq]
  constructor
  · rintro ⟨i, hi, he⟩
    exact ⟨i, Nat.lt_succ_iff.mp hi, he⟩
  · rintro ⟨i, hi, he⟩
    exact ⟨i, Nat.lt_succ_iff.mpr hi, he⟩

/-- `Environment.add(item, uid=None)`: take `item.uid()` when no uid is
given, set the resource's context back-reference to this Environment
(identified by `envId`), and only THEN check for a duplicate id, raising
`RuntimeError` without touching the resource mapping.  Returns the
resource after the call, the resource mapping after the call, the returned
uid (when the call returns) and the raised error (when it raises). -/
def envAdd (envId : Nat) (resources : List (String × ResourceModel))
    (item : ResourceModel) (uid : Option String) :
    ResourceModel × List (String × ResourceModel) × Option String ×
      Option PyErr :=
  let u := uid.getD item.uid
  let item1 := {item with context := some envId}
  if resources.any (fun p => p.1 == u) then
    (item1, resources, none, some (PyErr.runtimeError "Uid already in context"))
  else
    (item1, resources ++ [(u, item1)], some u, none)

/-- C10: adding a resource whose uid is already present fails with the
duplicate-id `RuntimeError`, yet the resource's context back-reference has
already been reassigned to this Environment before the failure — the
failed add is not atomic for the resource's context field — while the
Environment's resource mapping is unchanged by the failed call. -/
theorem envAdd_duplicate_nonatomic (envId : Nat)
    (resources : List (String × ResourceModel)) (item : ResourceModel)
    (uid : Option String)
    (hdup : (uid.getD item.uid) ∈ resources.map Prod.fst) :
    (envAdd envId resources item uid).2.2.2 =
      some (PyErr.runtimeError "Uid already in context") ∧
    (envAdd envId resources item uid).2.2.1 = none ∧
    (envAdd envId resources item uid).1.context = some envId ∧
    (envAdd envId resources item uid).2.1 = resources := by
  have hany : resources.any (fun p => p.1 == uid.getD item.uid) = true := by
    rw [List.any_eq_true]
    obtain ⟨p, hp, he⟩ := List.mem_map.mp hdup
    exact ⟨p, hp, by simp [he]⟩
  refine ⟨?_, ?_, ?_, ?_⟩ <;> simp [envAdd, hany]

/-- Witness for `envAdd_duplicate_nonatomic`: re-adding uid "a" to an
environment that already holds it fails, yet the resource's context now
points at the environment, whose mapping is unchanged. -/
theorem envAdd_duplicate_nonatomic_witness :
    ((Option.none).getD (mkResource "a" true false).uid ∈
      [("a", mkResource "a" true false)].map Prod.fst) ∧
    ((envAdd 7 [("a", mkResource "a" true false)]
        (mkResource "a" true false) Option.none).2.2.2 =
      some (PyErr.runtimeError "Uid already in context") ∧
     (envAdd 7 [("a", mkResource "a" true false)]
        (mkResource "a" true false) Option.none).2.2.1 = none ∧
     (envAdd 7 [("a", mkResource "a" true false)]
        (mkResource "a" true false) Option.none).1.context = some 7 ∧
     (envAdd 7 [("a", mkResource "a" true false)]
        (mkResource "a" true false) Option.none).2.1 =
       [("a", mkResource "a" true false)]) :=
  ⟨by decide,
   envAdd_duplicate_nonatomic 7 [("a", mkResource "a" true false)]
     (mkResource "a" true false) Option.none (by decide)⟩
